import Mathlib

/-!
Verification of the fund-bot conversational pipeline.

Shallow embedding of the request-handling subsystem: the per-requester rate
limiter and cost ledger, the Claude client retry loop and error translation,
the Slack events handler (as an action trace), the response cache, the thread
memory store with summarization, and the Slack thread-history recovery.
Machine integers are modelled as `Nat`, JS floating-point dollar amounts as
`Rat`, JS `Map`s as functional maps or association lists (preserving insertion
order where iteration order matters), and `Date.now()` as an explicit `now`
parameter.
-/

namespace FundBot

/-! ### String helpers (JS `String.prototype.includes`, `toLowerCase`) -/

/-- Lower-case a string character-wise (model of JS `toLowerCase` on the
ASCII-relevant strings used by the code). -/
def toLowerStr (s : String) : String := String.mk (s.data.map Char.toLower)

/-- Does the second list occur as a leading segment of the first argument list?
Helper for substring search. -/
def leadsWith : List Char → List Char → Bool
  | [], _ => true
  | _ :: _, [] => false
  | a :: as, b :: bs => a == b && leadsWith as bs

/-- Does `needle` occur as a contiguous sublist of the second argument? -/
def hasSub (needle : List Char) : List Char → Bool
  | [] => needle.isEmpty
  | c :: t => leadsWith needle (c :: t) || hasSub needle t

/-- Model of JS `hay.includes(needle)`. -/
def strContains (hay needle : String) : Bool := hasSub needle.data hay.data

/-! ### Rate limiter (`src/lib/utils/rate-limiter.ts`)

`RATE_LIMIT_CONFIG` and `checkRateLimit`: a fixed-window counter per user key.
The in-memory `Map` is modelled as a functional map from keys to entries.
-/

/-- `RATE_LIMIT_CONFIG.maxRequests`. -/
def maxRequests : ℕ := 20

/-- `RATE_LIMIT_CONFIG.windowMs` (5 minutes). -/
def windowMs : ℕ := 5 * 60 * 1000

/-- `RATE_LIMIT_CONFIG.warningThreshold` (80% of limit). -/
def warningThreshold : ℕ := 16

structure RateLimitEntry where
  count : ℕ
  resetTime : ℕ
  firstRequestTime : ℕ
  deriving DecidableEq, Repr

/-- The `rateLimits` map. -/
def RateState : Type := String → Option RateLimitEntry

/-- `rateLimits.set(key, entry)`. -/
def rateUpdate (s : RateState) (k : String) (v : RateLimitEntry) : RateState :=
  fun k2 => if k2 = k then some v else s k2

structure RateLimitResult where
  allowed : Bool
  remaining : ℤ
  resetTime : ℕ
  warning : Option String
  deriving DecidableEq, Repr

/-- `checkRateLimit(userId)` at time `now`, returning the result and the
updated `rateLimits` map. A new entry is created if none exists or the window
expired (`now >= entry.resetTime`); the count is incremented; allowed iff
`count <= maxRequests`; `remaining = Math.max(0, maxRequests - count)`. -/
def checkRateLimit (s : RateState) (userId : String) (now : ℕ) :
    RateLimitResult × RateState :=
  let key := "user:" ++ userId
  let entry : RateLimitEntry :=
    match s key with
    | some e =>
        if e.resetTime ≤ now then
          { count := 0, resetTime := now + windowMs, firstRequestTime := now }
        else e
    | none => { count := 0, resetTime := now + windowMs, firstRequestTime := now }
  let entry2 : RateLimitEntry := { entry with count := entry.count + 1 }
  let remaining : ℤ := max 0 ((maxRequests : ℤ) - (entry2.count : ℤ))
  let warning : Option String :=
    if warningThreshold ≤ entry2.count ∧ entry2.count < maxRequests then
      some ("You're approaching your rate limit (" ++ toString remaining ++
        " requests remaining in this " ++ toString (windowMs / 60000) ++ " min window)")
    else none
  ({ allowed := decide (entry2.count ≤ maxRequests),
     remaining := remaining,
     resetTime := entry2.resetTime,
     warning := warning },
   rateUpdate s key entry2)

/-- A sequence of `checkRateLimit` calls for one user at the given times,
collecting the results and threading the map. -/
def runCalls : RateState → String → List ℕ → List RateLimitResult × RateState
  | s, _, [] => ([], s)
  | s, u, t :: ts =>
    let p := checkRateLimit s u t
    let q := runCalls p.2 u ts
    (p.1 :: q.1, q.2)

lemma checkRateLimit_inWindow (s : RateState) (u : String) (now : ℕ)
    (e : RateLimitEntry) (hs : s ("user:" ++ u) = some e) (hw : now < e.resetTime) :
    (checkRateLimit s u now).1.allowed = decide (e.count + 1 ≤ maxRequests) ∧
    (checkRateLimit s u now).1.remaining = max 0 ((maxRequests : ℤ) - (e.count + 1 : ℕ)) ∧
    (checkRateLimit s u now).1.resetTime = e.resetTime ∧
    (checkRateLimit s u now).2 ("user:" ++ u) = some { e with count := e.count + 1 } := by
  have hnot : ¬ e.resetTime ≤ now := Nat.not_le.mpr hw
  refine ⟨?_, ?_, ?_, ?_⟩ <;> simp [checkRateLimit, hs, hnot, rateUpdate]

lemma checkRateLimit_fresh (s : RateState) (u : String) (now : ℕ)
    (hs : s ("user:" ++ u) = none) :
    (checkRateLimit s u now).1.allowed = true ∧
    (checkRateLimit s u now).2 ("user:" ++ u) =
      some { count := 1, resetTime := now + windowMs, firstRequestTime := now } := by
  constructor <;> simp [checkRateLimit, hs, rateUpdate, maxRequests]

lemma runCalls_inWindow (u : String) :
    ∀ (ts : List ℕ) (s : RateState) (e : RateLimitEntry),
      s ("user:" ++ u) = some e → (∀ x ∈ ts, x < e.resetTime) →
      (runCalls s u ts).2 ("user:" ++ u) =
        some { count := e.count + ts.length, resetTime := e.resetTime,
               firstRequestTime := e.firstRequestTime } ∧
      (e.count + ts.length ≤ maxRequests →
        ((runCalls s u ts).1.all fun r => r.allowed) = true) := by
  intro ts
  induction ts with
  | nil =>
    intro s e hs _
    constructor
    · simpa [runCalls] using hs
    · intro _; simp [runCalls]
  | cons t ts ih =>
    intro s e hs hts
    have hw : t < e.resetTime := hts t (by simp)
    obtain ⟨hall, _, _, hstate⟩ := checkRateLimit_inWindow s u t e hs hw
    have hts2 : ∀ x ∈ ts, x < ({ e with count := e.count + 1 } : RateLimitEntry).resetTime := by
      intro x hx; exact hts x (by simp [hx])
    obtain ⟨ih1, ih2⟩ := ih (checkRateLimit s u t).2 { e with count := e.count + 1 } hstate hts2
    constructor
    · simp only [runCalls]
      rw [ih1]
      congr 1
      simp
      omega
    · intro hle
      simp only [runCalls, List.all_cons, Bool.and_eq_true]
      constructor
      · rw [hall]; simp only [List.length_cons] at hle; simp; omega
      · exact ih2 (by simp only [List.length_cons] at hle; simp; omega)

/-- C7: starting with no window for the requester, `max` calls inside one
window are all admitted and the `(max+1)`th call in the same window is
rejected with `remaining = 0` and `resetTime` strictly greater than `now`. -/
theorem checkRateLimit_max_plus_one (s0 : RateState) (u : String) (t1 : ℕ)
    (rest : List ℕ) (t21 : ℕ)
    (h0 : s0 ("user:" ++ u) = none) (hlen : rest.length = maxRequests - 1)
    (hrest : ∀ x ∈ rest, x < t1 + windowMs) (h21 : t21 < t1 + windowMs) :
    ((runCalls s0 u (t1 :: rest)).1.all fun r => r.allowed) = true ∧
    (checkRateLimit (runCalls s0 u (t1 :: rest)).2 u t21).1.allowed = false ∧
    (checkRateLimit (runCalls s0 u (t1 :: rest)).2 u t21).1.remaining = 0 ∧
    t21 < (checkRateLimit (runCalls s0 u (t1 :: rest)).2 u t21).1.resetTime := by
  obtain ⟨hall1, hstate1⟩ := checkRateLimit_fresh s0 u t1 h0
  have hrest2 : ∀ x ∈ rest,
      x < ({ count := 1, resetTime := t1 + windowMs, firstRequestTime := t1 } :
        RateLimitEntry).resetTime := by
    intro x hx; simpa using hrest x hx
  obtain ⟨hs2, hall2⟩ := runCalls_inWindow u rest (checkRateLimit s0 u t1).2
    { count := 1, resetTime := t1 + windowMs, firstRequestTime := t1 } hstate1 hrest2
  have h19 : rest.length = 19 := by simpa [maxRequests] using hlen
  obtain ⟨h21all, h21rem, h21reset, _⟩ := checkRateLimit_inWindow
    (runCalls (checkRateLimit s0 u t1).2 u rest).2 u t21
    { count := 1 + rest.length, resetTime := t1 + windowMs, firstRequestTime := t1 }
    (by simpa using hs2) (by simpa using h21)
  refine ⟨?_, ?_, ?_, ?_⟩
  · simp only [runCalls, List.all_cons, Bool.and_eq_true]
    exact ⟨by simpa using hall1, hall2 (by simp [h19, maxRequests])⟩
  · simp only [runCalls]
    rw [h21all]
    simp [h19, maxRequests]
  · simp only [runCalls]
    rw [h21rem]
    simp [h19, maxRequests]
  · simp only [runCalls]
    rw [h21reset]
    simpa using h21

/-- Witness for C7 at a concrete input: a fresh user issuing 20 requests at
time 0 and a 21st at time 1. -/
theorem checkRateLimit_max_plus_one_witness :
    ((runCalls (fun _ => none) "alice" (0 :: List.replicate 19 0)).1.all
        fun r => r.allowed) = true ∧
    (checkRateLimit (runCalls (fun _ => none) "alice"
        (0 :: List.replicate 19 0)).2 "alice" 1).1.allowed = false ∧
    (checkRateLimit (runCalls (fun _ => none) "alice"
        (0 :: List.replicate 19 0)).2 "alice" 1).1.remaining = 0 ∧
    1 < (checkRateLimit (runCalls (fun _ => none) "alice"
        (0 :: List.replicate 19 0)).2 "alice" 1).1.resetTime :=
  checkRateLimit_max_plus_one (fun _ => none) "alice" 0 (List.replicate 19 0) 1
    rfl (by simp [maxRequests])
    (by intro x hx; rw [List.eq_of_mem_replicate hx]; simp [windowMs])
    (by simp [windowMs])

/-! ### Cost tracking (`src/lib/utils/rate-limiter.ts`)

`COST_CONFIG` and `trackCost`: a rolling 24-hour per-user cost ledger.
Dollar amounts are modelled as rationals.
-/

/-- `COST_CONFIG.costPer1MTokens` ($15 per 1M tokens). -/
def costPer1MTokens : ℚ := 15

/-- `COST_CONFIG.dailyBudgetPerUser` ($10 per user per day). -/
def dailyBudgetPerUser : ℚ := 10

/-- `COST_CONFIG.costWindowMs` (24 hours). -/
def costWindowMs : ℕ := 24 * 60 * 60 * 1000

structure CostEntry where
  tokensUsed : ℕ
  estimatedCost : ℚ
  requestCount : ℕ
  resetTime : ℕ
  deriving DecidableEq, Repr

/-- The `costTracking` map. -/
def CostState : Type := String → Option CostEntry

/-- `costTracking.set(key, entry)`. -/
def costUpdate (s : CostState) (k : String) (v : CostEntry) : CostState :=
  fun k2 => if k2 = k then some v else s k2

structure TrackCostResult where
  withinBudget : Bool
  estimatedCost : ℚ
  budgetRemaining : ℚ
  deriving DecidableEq, Repr

/-- `trackCost(userId, inputTokens, outputTokens)` at time `now`. A new entry
is created if none exists or the window expired; the request cost
`(inputTokens + outputTokens) / 1,000,000 × costPer1MTokens` is accumulated
into the entry. -/
def trackCost (s : CostState) (userId : String) (inputTokens outputTokens : ℕ)
    (now : ℕ) : TrackCostResult × CostState :=
  let key := "cost:" ++ userId
  let entry : CostEntry :=
    match s key with
    | some e =>
        if e.resetTime ≤ now then
          { tokensUsed := 0, estimatedCost := 0, requestCount := 0,
            resetTime := now + costWindowMs }
        else e
    | none =>
        { tokensUsed := 0, estimatedCost := 0, requestCount := 0,
          resetTime := now + costWindowMs }
  let totalTokens := inputTokens + outputTokens
  let requestCost : ℚ := ((totalTokens : ℚ) / 1000000) * costPer1MTokens
  let entry2 : CostEntry :=
    { tokensUsed := entry.tokensUsed + totalTokens,
      estimatedCost := entry.estimatedCost + requestCost,
      requestCount := entry.requestCount + 1,
      resetTime := entry.resetTime }
  ({ withinBudget := decide (entry2.estimatedCost ≤ dailyBudgetPerUser),
     estimatedCost := entry2.estimatedCost,
     budgetRemaining := max 0 (dailyBudgetPerUser - entry2.estimatedCost) },
   costUpdate s key entry2)

structure BudgetCheckResult where
  allowed : Bool
  remainingBudget : ℚ
  resetTime : ℕ
  deriving DecidableEq, Repr

/-- Modelled from the spec: `checkBudget` is imported by the orchestrator
(`src/api/slack/events.ts`) from the rate-limiter module, but its definition
is not among the provided sources. Per the spec (§4.3, §8) it consults, before
generation, the same rolling 24-hour ledger that `trackCost` maintains, and it
admits a requester exactly while the ledger's accumulated `estimatedCost` is
strictly below the daily cap; once the ledger is at or above the cap it keeps
returning `allowed = false` until the window rolls over ("hard stop with no
override path"). -/
def checkBudget (s : CostState) (userId : String) (now : ℕ) : BudgetCheckResult :=
  let key := "cost:" ++ userId
  match s key with
  | none =>
      { allowed := true, remainingBudget := dailyBudgetPerUser,
        resetTime := now + costWindowMs }
  | some e =>
      if e.resetTime ≤ now then
        { allowed := true, remainingBudget := dailyBudgetPerUser,
          resetTime := now + costWindowMs }
      else
        { allowed := decide (e.estimatedCost < dailyBudgetPerUser),
          remainingBudget := max 0 (dailyBudgetPerUser - e.estimatedCost),
          resetTime := e.resetTime }

/-- A cost-tracking operation: `(userId, inputTokens, outputTokens, time)`. -/
def runTrackCost (s : CostState) (ops : List (String × ℕ × ℕ × ℕ)) : CostState :=
  ops.foldl (fun st op => (trackCost st op.1 op.2.1 op.2.2.1 op.2.2.2).2) s

lemma cost_key_inj {a b : String} (h : "cost:" ++ a = "cost:" ++ b) : a = b := by
  have h2 : ("cost:" ++ a).data = ("cost:" ++ b).data := congrArg String.data h
  simp only [String.data_append] at h2
  have h3 : a.data = b.data := List.append_cancel_left h2
  cases a; cases b; exact congrArg String.mk h3

lemma trackCost_state_other (s : CostState) (v u : String) (i o now : ℕ)
    (hne : v ≠ u) :
    (trackCost s v i o now).2 ("cost:" ++ u) = s ("cost:" ++ u) := by
  have : ("cost:" ++ u) ≠ ("cost:" ++ v) := fun h => hne (cost_key_inj h).symm
  simp [trackCost, costUpdate, this]

lemma trackCost_state_same (s : CostState) (u : String) (i o now : ℕ)
    (e : CostEntry) (hs : s ("cost:" ++ u) = some e) (hw : now < e.resetTime) :
    (trackCost s u i o now).2 ("cost:" ++ u) =
      some { tokensUsed := e.tokensUsed + (i + o),
             estimatedCost := e.estimatedCost + ((i + o : ℕ) : ℚ) / 1000000 * costPer1MTokens,
             requestCount := e.requestCount + 1,
             resetTime := e.resetTime } := by
  have hnot : ¬ e.resetTime ≤ now := Nat.not_le.mpr hw
  simp [trackCost, hs, hnot, costUpdate]

/-- Within a window, further `trackCost` traffic can only keep the requester's
entry (same `resetTime`) and never decrease its accumulated cost. -/
lemma runTrackCost_monotone (u : String) :
    ∀ (ops : List (String × ℕ × ℕ × ℕ)) (s : CostState) (e : CostEntry),
      s ("cost:" ++ u) = some e →
      (∀ op ∈ ops, op.1 = u → op.2.2.2 < e.resetTime) →
      ∃ e2, (runTrackCost s ops) ("cost:" ++ u) = some e2 ∧
        e2.resetTime = e.resetTime ∧ e.estimatedCost ≤ e2.estimatedCost := by
  intro ops
  induction ops with
  | nil =>
    intro s e hs _
    exact ⟨e, by simpa [runTrackCost] using hs, rfl, le_refl _⟩
  | cons op ops ih =>
    intro s e hs hops
    by_cases hu : op.1 = u
    · subst hu
      have htime : op.2.2.2 < e.resetTime := hops op (by simp) rfl
      have hstep := trackCost_state_same s op.1 op.2.1 op.2.2.1 op.2.2.2 e hs htime
      obtain ⟨e2, h1, h2, h3⟩ := ih (trackCost s op.1 op.2.1 op.2.2.1 op.2.2.2).2
        { tokensUsed := e.tokensUsed + (op.2.1 + op.2.2.1),
          estimatedCost := e.estimatedCost +
            ((op.2.1 + op.2.2.1 : ℕ) : ℚ) / 1000000 * costPer1MTokens,
          requestCount := e.requestCount + 1,
          resetTime := e.resetTime }
        hstep
        (by intro x hx hxu; exact hops x (by simp [hx]) hxu)
      refine ⟨e2, by simpa [runTrackCost] using h1, by simpa using h2, ?_⟩
      refine le_trans ?_ h3
      simp only
      have : (0 : ℚ) ≤ ((op.2.1 + op.2.2.1 : ℕ) : ℚ) / 1000000 * costPer1MTokens := by
        apply mul_nonneg
        · positivity
        · simp [costPer1MTokens]
      linarith
    · have hstep := trackCost_state_other s op.1 u op.2.1 op.2.2.1 op.2.2.2 hu
      obtain ⟨e2, h1, h2, h3⟩ := ih (trackCost s op.1 op.2.1 op.2.2.1 op.2.2.2).2 e
        (by rw [hstep]; exact hs)
        (by intro x hx hxu; exact hops x (by simp [hx]) hxu)
      exact ⟨e2, by simpa [runTrackCost] using h1, h2, h3⟩

/-- C1: once a `trackCost` call leaves the requester's ledger entry at or
above the daily cap, then after any further `trackCost` traffic whose calls
for this requester stay inside the same rolling window, `checkBudget` for this
requester at any time still inside the window returns `allowed = false`
(independent of any message content: `checkBudget` never inspects a message). -/
theorem checkBudget_denies_after_cap (s : CostState) (u : String)
    (i o now : ℕ) (ops : List (String × ℕ × ℕ × ℕ)) (t : ℕ) (e : CostEntry)
    (he : (trackCost s u i o now).2 ("cost:" ++ u) = some e)
    (hcap : dailyBudgetPerUser ≤ e.estimatedCost)
    (hops : ∀ op ∈ ops, op.1 = u → op.2.2.2 < e.resetTime)
    (ht : t < e.resetTime) :
    (checkBudget (runTrackCost (trackCost s u i o now).2 ops) u t).allowed = false := by
  obtain ⟨e2, h1, h2, h3⟩ := runTrackCost_monotone u ops (trackCost s u i o now).2 e he hops
  have ht2 : ¬ e2.resetTime ≤ t := by rw [h2]; exact Nat.not_le.mpr ht
  have hcap2 : ¬ e2.estimatedCost < dailyBudgetPerUser :=
    not_lt.mpr (le_trans hcap h3)
  simp [checkBudget, h1, ht2, hcap2]

/-- Witness for C1 at a concrete input: one `trackCost` of 1,000,000 tokens
costs $15 ≥ $10; after further traffic from another user and from the same
user inside the window, `checkBudget` still denies. -/
theorem checkBudget_denies_after_cap_witness :
    (checkBudget (runTrackCost (trackCost (fun _ => none) "alice" 1000000 0 0).2
      [("bob", 5, 5, 10), ("alice", 7, 3, 20)]) "alice" 1000).allowed = false :=
  checkBudget_denies_after_cap (fun _ => none) "alice" 1000000 0 0
    [("bob", 5, 5, 10), ("alice", 7, 3, 20)] 1000
    { tokensUsed := 1000000, estimatedCost := 15, requestCount := 1,
      resetTime := costWindowMs }
    (by simp [trackCost, costUpdate, costWindowMs, costPer1MTokens])
    (by norm_num [dailyBudgetPerUser])
    (by
      intro op hop hu
      simp only [List.mem_cons, List.mem_singleton] at hop
      rcases hop with h | h | h
      · rw [h] at hu; simp at hu
      · rw [h]; simp [costWindowMs]
      · simp at h)
    (by simp [costWindowMs])

/-! ### Claude client (`src/lib/claude/client.ts`)

`sendMessage` retries the provider call up to `MAX_RETRIES` extra attempts for
retryable errors and translates the last error via `getUserFriendlyError`.
A provider error carries an HTTP `status` (0 when absent: in JS both
`undefined` and `0` are falsy and compare the same way in every use below),
a network `code` string ("" when absent) and a `message`. The provider call
itself is modelled as an oracle from the attempt index to an outcome. -/

/-- `MAX_RETRIES`. -/
def MAX_RETRIES : ℕ := 3

structure ProviderError where
  status : ℕ
  code : String
  message : String
  deriving DecidableEq, Repr

structure SendMessageResult where
  response : String
  inputTokens : ℕ
  outputTokens : ℕ
  deriving DecidableEq, Repr

/-- `isRetryableError(error)`: retry on status 429 or 5xx when a status is
present, otherwise on the transient network codes. -/
def isRetryableError (e : ProviderError) : Bool :=
  if e.status ≠ 0 then e.status == 429 || decide (500 ≤ e.status)
  else e.code == "ECONNRESET" || e.code == "ETIMEDOUT" || e.code == "ENOTFOUND"

/-- `getUserFriendlyError(error)`. The final branch embeds
`error.message || 'Unknown error'` into the returned text. -/
def getUserFriendlyError (e : ProviderError) : String :=
  if e.status == 429 then
    "I'm receiving too many requests right now. Please try again in a moment."
  else if e.status == 401 then
    "There's an authentication issue with my AI service. Please contact the team."
  else if 500 ≤ e.status then
    "My AI service is experiencing issues. Please try again in a few moments."
  else if e.code == "ETIMEDOUT" || e.code == "ECONNRESET" then
    "The request timed out. Please try asking your question again."
  else if strContains e.message "context_length_exceeded" then
    "Your question is too complex or the conversation is too long. Try starting a new thread or asking a simpler question."
  else
    "I encountered an error: " ++ (if e.message == "" then "Unknown error" else e.message) ++
      ". Please try again or rephrase your question."

/-- The `for (let attempt = 0; attempt <= MAX_RETRIES; attempt++)` loop of
`sendMessage`. `fuel` counts the loop iterations still available, so
`fuel = 1` at entry means `attempt === MAX_RETRIES` (the last iteration);
it is called with `fuel = MAX_RETRIES + 1 - attempt`, which keeps the
recursion structural. Returns the outcome together with the number of
provider attempts actually made. -/
def sendMessageLoop (oracle : ℕ → Except ProviderError SendMessageResult) :
    ℕ → ℕ → Except String SendMessageResult × ℕ
  | _, 0 => (Except.error "", 0)
  | attempt, fuel + 1 =>
    match oracle attempt with
    | Except.ok r => (Except.ok r, attempt + 1)
    | Except.error e =>
      if fuel = 0 then
        (Except.error (getUserFriendlyError e), attempt + 1)
      else if ¬ isRetryableError e then
        (Except.error (getUserFriendlyError e), attempt + 1)
      else
        sendMessageLoop oracle (attempt + 1) fuel

/-- `sendMessage` against a provider oracle: on success the attempt's result
is returned; after a non-retryable error or exhausted retries the loop exits
and the user-friendly translation of the last error is thrown. -/
def sendMessage (oracle : ℕ → Except ProviderError SendMessageResult) :
    Except String SendMessageResult × ℕ :=
  sendMessageLoop oracle 0 (MAX_RETRIES + 1)

/-- C6: if attempts 1 and 2 (indices 0 and 1) fail with retryable errors and
attempt 3 (index 2) succeeds, `sendMessage` returns the attempt-3 result and
makes exactly 3 provider attempts. -/
theorem sendMessage_third_attempt_success
    (oracle : ℕ → Except ProviderError SendMessageResult)
    (e0 e1 : ProviderError) (r : SendMessageResult)
    (h0 : oracle 0 = Except.error e0) (hr0 : isRetryableError e0 = true)
    (h1 : oracle 1 = Except.error e1) (hr1 : isRetryableError e1 = true)
    (h2 : oracle 2 = Except.ok r) :
    sendMessage oracle = (Except.ok r, 3) := by
  simp [sendMessage, MAX_RETRIES, sendMessageLoop, h0, h1, h2, hr0, hr1]

/-- Witness for C6 at a concrete oracle: two 429 throttling errors followed
by a success. -/
theorem sendMessage_third_attempt_success_witness :
    sendMessage (fun n => if n < 2 then
        Except.error { status := 429, code := "", message := "rate limited" }
      else Except.ok { response := "answer", inputTokens := 12, outputTokens := 7 }) =
      (Except.ok { response := "answer", inputTokens := 12, outputTokens := 7 }, 3) :=
  sendMessage_third_attempt_success _
    { status := 429, code := "", message := "rate limited" }
    { status := 429, code := "", message := "rate limited" }
    { response := "answer", inputTokens := 12, outputTokens := 7 }
    rfl (by decide) rfl (by decide) rfl

/-! ### Orchestrator failure translation (`src/api/slack/events.ts`, catch block)

`handleEvent`'s catch block inspects the lower-cased `error.message` of the
caught `Error` and picks the user-facing message to post (the posted text then
appends an error-id footer). On the provider path the caught error is the one
`sendMessage` throws, whose message is `getUserFriendlyError(lastError)`. -/

/-- The constant user-facing messages of `handleEvent`'s catch block (the
three timeout variants, the ai-service, sheets, slack, network and generic
branches, and the default used when the thrown value is not an `Error`). -/
def fixedUserMessages : List String :=
  ["â±ï¸ The portfolio data took too long to load. Our Google Sheets might be slow. Please try again in a moment.",
   "â±ï¸ The AI response took too long. Please try a shorter or simpler question.",
   "â±ï¸ The request timed out. Please try again in a moment.",
   "ðŸ¤– The AI service is temporarily unavailable. Please try again in a few minutes.",
   "ðŸ“Š I had trouble fetching portfolio data. The Google Sheets service may be slow or unavailable. Please try again in a moment.",
   "ðŸ’¬ I had trouble communicating with Slack. Your request was received but I couldn't respond properly.",
   "ðŸŒ A network error occurred. Please check your connection and try again.",
   "Sorry, something went wrong. Please try again in a moment.",
   "Sorry, I encountered an unexpected error. Please try again in a moment."]

/-- The `error instanceof Error` branch of `handleEvent`'s catch block:
classify `error.message` and produce the user-facing message. The
rate-limit/budget branch posts `error.message` itself. -/
def handleEventErrorMessage (msg : String) : String :=
  let m := toLowerStr msg
  if strContains m "timed out" then
    if strContains m "portfolio" || strContains m "sheets" then
      "â±ï¸ The portfolio data took too long to load. Our Google Sheets might be slow. Please try again in a moment."
    else if strContains m "claude" then
      "â±ï¸ The AI response took too long. Please try a shorter or simpler question."
    else
      "â±ï¸ The request timed out. Please try again in a moment."
  else if strContains m "rate limit" || strContains m "budget" then
    msg
  else if strContains m "ai service" || strContains m "anthropic" || strContains m "claude" then
    "ðŸ¤– The AI service is temporarily unavailable. Please try again in a few minutes."
  else if strContains m "sheets" || strContains m "google" || strContains m "spreadsheet" then
    "ðŸ“Š I had trouble fetching portfolio data. The Google Sheets service may be slow or unavailable. Please try again in a moment."
  else if strContains m "slack" then
    "ðŸ’¬ I had trouble communicating with Slack. Your request was received but I couldn't respond properly."
  else if strContains m "network" || strContains m "fetch" || strContains m "econnrefused" then
    "ðŸŒ A network error occurred. Please check your connection and try again."
  else
    "Sorry, something went wrong. Please try again in a moment."

/-- The full catch block: when the thrown value is not an `Error` the default
message stays. -/
def handleEventUserMessage : Option String → String
  | none => "Sorry, I encountered an unexpected error. Please try again in a moment."
  | some msg => handleEventErrorMessage msg

/-- The message the requester sees when a provider call fails after the
retry loop: `sendMessage` throws `Error(getUserFriendlyError(lastError))`
and `handleEvent`'s catch block classifies that message. -/
def providerFailureUserMessage (e : ProviderError) : String :=
  handleEventErrorMessage (getUserFriendlyError e)

/-- The raw-echo branch of the catch block: taken when the message does not
mention "timed out" but mentions "rate limit" or "budget". -/
def echoesRawError (msg : String) : Bool :=
  let m := toLowerStr msg
  !strContains m "timed out" && (strContains m "rate limit" || strContains m "budget")

/-- C2 counterexample: a provider error with no recognized status or network
code whose message mentions a budget. `getUserFriendlyError` embeds the raw
message into its fallback text, the catch block's rate-limit/budget branch
posts that text verbatim, so the raw provider token "xyzzy" reaches the
requester and the posted message is outside the fixed set. -/
theorem providerFailure_leaks_raw_text :
    (sendMessage (fun _ => Except.error
        { status := 0, code := "", message := "budget ledger sync failed: xyzzy" })).1 =
      Except.error (getUserFriendlyError
        { status := 0, code := "", message := "budget ledger sync failed: xyzzy" }) ∧
    strContains (providerFailureUserMessage
        { status := 0, code := "", message := "budget ledger sync failed: xyzzy" })
      "xyzzy" = true ∧
    providerFailureUserMessage
        { status := 0, code := "", message := "budget ledger sync failed: xyzzy" }
      ∉ fixedUserMessages := by
  refine ⟨rfl, by decide, by decide⟩

/-- C2 (amended): every provider-call failure is translated to one of the
fixed user-facing messages, except when the friendly translation of the last
error lands in the catch block's raw-echo branch (no "timed out" but
"rate limit" or "budget" in the lower-cased message), in which case the raw
text is posted. -/
theorem providerFailure_message_fixed (e : ProviderError)
    (h : echoesRawError (getUserFriendlyError e) = false) :
    providerFailureUserMessage e ∈ fixedUserMessages := by
  have h2 := h
  simp only [echoesRawError, Bool.and_eq_false_iff, Bool.not_eq_false',
    Bool.or_eq_false_iff] at h2
  unfold providerFailureUserMessage handleEventErrorMessage
  rcases h2 with h2 | ⟨hrl, hb⟩
  · simp only [h2, if_true, Bool.or_eq_true]
    split_ifs <;> simp [fixedUserMessages]
  · simp only [hrl, hb, Bool.or_self, if_false, Bool.false_eq_true]
    split_ifs <;> simp [fixedUserMessages]

/-- Witness for C2 (amended) at a concrete input: a 429 throttling error
exhausting retries maps into the fixed set. -/
theorem providerFailure_message_fixed_witness :
    providerFailureUserMessage { status := 429, code := "", message := "throttled" }
      ∈ fixedUserMessages :=
  providerFailure_message_fixed
    { status := 429, code := "", message := "throttled" } (by decide)

/-! ### HTTP handler ordering (`src/api/slack/events.ts`, `handler`)

The default export is modelled as the ordered trace of its externally visible
actions. For an `event_callback` the code runs `await handleEvent(event)`
(with a try/catch) and only then `return res.status(200)` — the source
comment reads "Process event (must complete before responding or Vercel
kills it)" / "Respond after processing". -/

inductive HttpAction where
  /-- `res.status(n)` response sent. -/
  | respond (status : ℕ) : HttpAction
  /-- `res.status(200).json({ challenge })` echo. -/
  | respondChallenge : HttpAction
  /-- `await handleEvent(event)` run to completion (exceptions caught). -/
  | processEvent : HttpAction
  deriving DecidableEq, Repr

structure SlackRequest where
  methodPost : Bool
  validJson : Bool
  signatureValid : Bool
  reqType : String
  hasEvent : Bool
  deriving DecidableEq, Repr

/-- The action trace of `handler(req, res)`. -/
def handler (r : SlackRequest) : List HttpAction :=
  if ¬ r.methodPost then [HttpAction.respond 405]
  else if ¬ r.validJson then [HttpAction.respond 400]
  else if ¬ r.signatureValid then [HttpAction.respond 401]
  else if r.reqType == "url_verification" then [HttpAction.respondChallenge]
  else if r.reqType == "event_callback" && r.hasEvent then
    [HttpAction.processEvent, HttpAction.respond 200]
  else [HttpAction.respond 200]

/-- A concrete authenticated `event_callback` request. -/
def eventCallbackRequest : SlackRequest :=
  { methodPost := true, validJson := true, signatureValid := true,
    reqType := "event_callback", hasEvent := true }

/-- C3 counterexample: for an authenticated `event_callback` request the
trace runs `handleEvent` to completion first and sends the 200
acknowledgment only afterwards — the acknowledgment does not precede (and
does not skip) downstream processing. -/
theorem handler_acknowledges_after_processing :
    handler eventCallbackRequest =
      [HttpAction.processEvent, HttpAction.respond 200] ∧
    (handler eventCallbackRequest).head? ≠ some (HttpAction.respond 200) := by
  refine ⟨by decide, by decide⟩

/-- C3 (amended): for every authenticated `event_callback` request the
handler awaits `handleEvent` to completion (exceptions caught) and only then
sends its 200 acknowledgment. -/
theorem handler_event_callback_trace (r : SlackRequest)
    (hp : r.methodPost = true) (hj : r.validJson = true)
    (hs : r.signatureValid = true) (ht : r.reqType = "event_callback")
    (he : r.hasEvent = true) :
    handler r = [HttpAction.processEvent, HttpAction.respond 200] := by
  simp [handler, hp, hj, hs, ht, he]

/-- Witness for C3 (amended) at a concrete request. -/
theorem handler_event_callback_trace_witness :
    handler eventCallbackRequest =
      [HttpAction.processEvent, HttpAction.respond 200] :=
  handler_event_callback_trace eventCallbackRequest rfl rfl rfl rfl rfl

/-! ### Pipeline ordering inside `handleEvent` (`src/api/slack/events.ts`)

`handleEvent` is modelled as the ordered trace of its side effects, driven by
an environment of branch outcomes. In the source, the portfolio-data fetch
(`withTimeoutAll([...], TIMEOUTS.sheets, ...)`) runs before `hashContext` and
the response-cache lookup, because the context hash is part of the cache
key. -/

inductive PipelineAction where
  | addReaction (emoji : String)
  | postHelp
  | postValidationError
  | postRateLimitMsg
  | postBudgetMsg
  /-- The concurrent portfolio-data fetch under the shared sheets timeout. -/
  | fetchPortfolioData
  /-- `getCachedResponse(sanitizedText, contextHash)`. -/
  | cacheLookup
  | postCachedResponse
  /-- `getThreadMessagesWithFallback(threadId, channel)`. -/
  | readHistory
  /-- `sendMessage(...)` under the claude timeout. -/
  | callClaude
  | trackCostAction
  /-- `addMessageToThread(...)`. -/
  | storeMemory
  | cacheStore
  | postResponse
  | postErrorMessage
  deriving DecidableEq, Repr

structure EventEnv where
  /-- The event id is already in `processedEvents`. -/
  isDuplicate : Bool
  /-- `bot_id` present. -/
  hasBotId : Bool
  /-- `text` present. -/
  hasText : Bool
  isMention : Bool
  isDM : Bool
  isListenChannel : Bool
  /-- `cleanMessageText(text)` is empty. -/
  cleanedTextEmpty : Bool
  /-- `isHelpRequest(cleanText)`. -/
  helpRequested : Bool
  /-- `validateAndSanitizeInput(cleanText).valid`. -/
  validationValid : Bool
  /-- `checkRateLimit(user).allowed`. -/
  rateAllowed : Bool
  /-- `checkBudget(user).allowed`. -/
  budgetAllowed : Bool
  /-- The portfolio fetch batch resolved inside its timeout. -/
  portfolioFetchOk : Bool
  /-- No thread stats yet (`!threadStats || threadStats.messageCount === 0`). -/
  isNewConversation : Bool
  /-- `getCachedResponse` returned a value. -/
  cacheHit : Bool
  /-- The claude call resolved inside its timeout. -/
  claudeOk : Bool
  deriving DecidableEq, Repr

/-- The trace of `handleEvent` after the cache check: history read, provider
call, and the success or failure tail. -/
def generationTail (env : EventEnv) : List PipelineAction :=
  PipelineAction.readHistory :: PipelineAction.callClaude ::
    (if env.claudeOk then
      [PipelineAction.trackCostAction, PipelineAction.storeMemory,
       PipelineAction.storeMemory] ++
      (if env.isNewConversation then [PipelineAction.cacheStore] else []) ++
      [PipelineAction.postResponse, PipelineAction.addReaction "white_check_mark"]
    else
      [PipelineAction.postErrorMessage, PipelineAction.addReaction "x"])

/-- The ordered side-effect trace of `handleEvent(event)`. -/
def handleEvent (env : EventEnv) : List PipelineAction :=
  if env.isDuplicate then []
  else if env.hasBotId then []
  else if ¬ env.hasText then []
  else if ¬ (env.isMention || env.isDM || env.isListenChannel) then []
  else
    PipelineAction.addReaction "thinking_face" ::
    (if env.cleanedTextEmpty then [PipelineAction.postHelp]
     else if env.helpRequested then
       [PipelineAction.postHelp, PipelineAction.addReaction "white_check_mark"]
     else if ¬ env.validationValid then
       [PipelineAction.postValidationError, PipelineAction.addReaction "warning"]
     else if ¬ env.rateAllowed then
       [PipelineAction.postRateLimitMsg, PipelineAction.addReaction "hourglass"]
     else if ¬ env.budgetAllowed then
       [PipelineAction.postBudgetMsg, PipelineAction.addReaction "moneybag"]
     else
       PipelineAction.fetchPortfolioData ::
       (if ¬ env.portfolioFetchOk then
          [PipelineAction.postErrorMessage, PipelineAction.addReaction "x"]
        else if env.isNewConversation then
          PipelineAction.cacheLookup ::
          (if env.cacheHit then
            [PipelineAction.postCachedResponse, PipelineAction.storeMemory,
             PipelineAction.storeMemory, PipelineAction.addReaction "white_check_mark"]
           else generationTail env)
        else generationTail env))

/-- An admitted environment that reaches the response-cache check. -/
def admittedEnv (env : EventEnv) : Prop :=
  env.isDuplicate = false ∧ env.hasBotId = false ∧ env.hasText = true ∧
  (env.isMention || env.isDM || env.isListenChannel) = true ∧
  env.cleanedTextEmpty = false ∧ env.helpRequested = false ∧
  env.validationValid = true ∧ env.rateAllowed = true ∧
  env.budgetAllowed = true ∧ env.portfolioFetchOk = true

/-- A concrete admitted fresh-thread environment with a cache hit. -/
def envCacheHit : EventEnv :=
  { isDuplicate := false, hasBotId := false, hasText := true,
    isMention := true, isDM := false, isListenChannel := false,
    cleanedTextEmpty := false, helpRequested := false,
    validationValid := true, rateAllowed := true, budgetAllowed := true,
    portfolioFetchOk := true, isNewConversation := true, cacheHit := true,
    claudeOk := true }

/-- A concrete admitted fresh-thread environment with a cache miss. -/
def envCacheMiss : EventEnv :=
  { isDuplicate := false, hasBotId := false, hasText := true,
    isMention := true, isDM := false, isListenChannel := false,
    cleanedTextEmpty := false, helpRequested := false,
    validationValid := true, rateAllowed := true, budgetAllowed := true,
    portfolioFetchOk := true, isNewConversation := true, cacheHit := false,
    claudeOk := true }

/-- C5 counterexample: an admitted fresh-thread event with a cache hit. The
trace shows the external portfolio fetch happening, and happening before the
cache lookup — a cache hit does not avoid the external-data fetch, and the
lookup does not precede the fetch. -/
theorem handleEvent_cache_hit_still_fetches :
    handleEvent envCacheHit =
      [PipelineAction.addReaction "thinking_face",
       PipelineAction.fetchPortfolioData, PipelineAction.cacheLookup,
       PipelineAction.postCachedResponse, PipelineAction.storeMemory,
       PipelineAction.storeMemory, PipelineAction.addReaction "white_check_mark"] ∧
    PipelineAction.fetchPortfolioData ∈ handleEvent envCacheHit := by
  refine ⟨by decide, by decide⟩

/-- C5 (amended): for every admitted fresh-thread event the external-data
fetch precedes the response-cache lookup (its hash is part of the cache key),
and a cache hit skips the generation call but not the external-data fetch. -/
theorem handleEvent_fetch_before_cacheLookup (env : EventEnv)
    (ha : admittedEnv env) (hnew : env.isNewConversation = true) :
    (handleEvent env).indexOf PipelineAction.fetchPortfolioData <
      (handleEvent env).indexOf PipelineAction.cacheLookup ∧
    (env.cacheHit = true → PipelineAction.callClaude ∉ handleEvent env) := by
  obtain ⟨h1, h2, h3, h4, h5, h6, h7, h8, h9, h10⟩ := ha
  simp only [handleEvent, h1, h2, h3, h4, h5, h6, h7, h8, h9, h10, hnew]
  cases hc : env.cacheHit <;> simp_all

/-- Witness for C5 (amended) at a concrete admitted environment. -/
theorem handleEvent_fetch_before_cacheLookup_witness :
    (handleEvent envCacheMiss).indexOf PipelineAction.fetchPortfolioData <
      (handleEvent envCacheMiss).indexOf PipelineAction.cacheLookup ∧
    (envCacheMiss.cacheHit = true →
      PipelineAction.callClaude ∉ handleEvent envCacheMiss) :=
  handleEvent_fetch_before_cacheLookup envCacheMiss
    ⟨rfl, rfl, rfl, rfl, rfl, rfl, rfl, rfl, rfl, rfl⟩ rfl

/-! ### Response cache (`src/lib/utils/response-cache.ts`, `src/unnamed/part_016`)

The `responseCache` JS `Map` is modelled as an association list in insertion
order (keys are unique in a `Map`, so deleting a key is filtering it out and
`set` replaces in place or appends). -/

/-- `CACHE_CONFIG.defaultTTL` (5 minutes). -/
def cacheDefaultTTL : ℕ := 5 * 60 * 1000

/-- `CACHE_CONFIG.shortTTL` (30 seconds). -/
def cacheShortTTL : ℕ := 30 * 1000

/-- `CACHE_CONFIG.longTTL` (30 minutes). -/
def cacheLongTTL : ℕ := 30 * 60 * 1000

/-- `CACHE_CONFIG.maxEntries`. -/
def cacheMaxEntries : ℕ := 100

structure CacheEntry where
  response : String
  timestamp : ℕ
  hitCount : ℕ
  deriving DecidableEq, Repr

/-- The `responseCache` map, in insertion order. -/
def CacheMap : Type := List (String × CacheEntry)

/-- Drop whitespace at both ends (model of JS `trim`). -/
def trimChars (l : List Char) : List Char :=
  ((l.dropWhile Char.isWhitespace).reverse.dropWhile Char.isWhitespace).reverse

/-- Replace each maximal whitespace run by one space (model of JS
`replace(/\s+/g, ' ')`); the flag records whether the previous character was
whitespace. -/
def squeezeWsAux : Bool → List Char → List Char
  | _, [] => []
  | prevWs, c :: rest =>
    if c.isWhitespace then
      if prevWs then squeezeWsAux true rest
      else ' ' :: squeezeWsAux true rest
    else c :: squeezeWsAux false rest

/-- `query.toLowerCase().trim().replace(/\s+/g, ' ')`. -/
def normalizeQuery (q : String) : String :=
  String.mk (squeezeWsAux false (trimChars (toLowerStr q).data))

/-- `generateCacheKey(query, contextHash)`. -/
def generateCacheKey (query : String) (contextHash : Option String) : String :=
  match contextHash with
  | some h => normalizeQuery query ++ ":" ++ h
  | none => normalizeQuery query

/-- `getCacheTTL(query)`: short TTL for price/live queries, long TTL for
explanatory queries, default otherwise. -/
def getCacheTTL (query : String) : ℕ :=
  let lowerQuery := toLowerStr query
  if strContains lowerQuery "price" || strContains lowerQuery "current" ||
      strContains lowerQuery "now" || strContains lowerQuery "live" then
    cacheShortTTL
  else if strContains lowerQuery "what is" || strContains lowerQuery "explain" ||
      strContains lowerQuery "how does" || strContains lowerQuery "tell me about" then
    cacheLongTTL
  else cacheDefaultTTL

/-- `shouldCache(query)`: no caching for immediacy-marked or very short
queries. -/
def shouldCache (query : String) : Bool :=
  let lowerQuery := toLowerStr query
  if strContains lowerQuery "just now" || strContains lowerQuery "this second" ||
      strContains lowerQuery "right now" then false
  else if query.length < 10 then false
  else true

/-- `responseCache.get(key)`. -/
def lookupEntry : CacheMap → String → Option CacheEntry
  | [], _ => none
  | p :: t, k => if p.1 = k then some p.2 else lookupEntry t k

/-- `responseCache.set(key, v)`: replace in place when the key exists,
append otherwise. -/
def mapSet : CacheMap → String → CacheEntry → CacheMap
  | [], k, v => [(k, v)]
  | p :: t, k, v => if p.1 = k then (k, v) :: t else p :: mapSet t k v

/-- `responseCache.delete(key)` (keys are unique in a `Map`). -/
def eraseEntry (s : CacheMap) (k : String) : CacheMap :=
  s.filter (fun p => p.1 != k)

/-- The eviction scan of `setCachedResponse`: the first entry with the
strictly smallest `timestamp` in iteration order. -/
def findOldest (s : CacheMap) : Option String :=
  (s.foldl (fun best p =>
    match best with
    | none => some (p.1, p.2.timestamp)
    | some q => if p.2.timestamp < q.2 then some (p.1, p.2.timestamp) else some q)
    none).map (fun q => q.1)

/-- `getCachedResponse(query, contextHash)` at time `now`: returns the cached
text and the updated map (expired entries are deleted; a hit bumps
`hitCount`). -/
def getCachedResponse (s : CacheMap) (query : String) (contextHash : Option String)
    (now : ℕ) : Option String × CacheMap :=
  if ¬ shouldCache query then (none, s)
  else
    let key := generateCacheKey query contextHash
    match lookupEntry s key with
    | none => (none, s)
    | some entry =>
      if getCacheTTL query < now - entry.timestamp then (none, eraseEntry s key)
      else (some entry.response,
        mapSet s key { entry with hitCount := entry.hitCount + 1 })

/-- `setCachedResponse(query, response, contextHash)` at time `now`: evict
the oldest entry when full, then store. -/
def setCachedResponse (s : CacheMap) (query response : String)
    (contextHash : Option String) (now : ℕ) : CacheMap :=
  if ¬ shouldCache query then s
  else
    let s2 := if cacheMaxEntries ≤ s.length then
        match findOldest s with
        | some k => eraseEntry s k
        | none => s
      else s
    mapSet s2 (generateCacheKey query contextHash)
      { response := response, timestamp := now, hitCount := 0 }

lemma lookupEntry_mapSet (k : String) (v : CacheEntry) :
    ∀ s : CacheMap, lookupEntry (mapSet s k v) k = some v := by
  intro s
  induction s with
  | nil => simp [mapSet, lookupEntry]
  | cons p t ih =>
    by_cases h : p.1 = k
    · simp [mapSet, lookupEntry, h]
    · simp [mapSet, lookupEntry, h, ih]

lemma lookupEntry_eraseEntry (k : String) :
    ∀ s : CacheMap, lookupEntry (eraseEntry s k) k = none := by
  intro s
  induction s with
  | nil => simp [eraseEntry, lookupEntry]
  | cons p t ih =>
    simp only [eraseEntry, List.filter_cons] at ih ⊢
    by_cases h : p.1 = k
    · simp [h, ih]
    · simp [h, lookupEntry, ih]

/-- C4 counterexample: the expiry test is `now - entry.timestamp > ttl`, so a
lookup at age exactly `ttl` (here the long TTL of an explanatory query) still
returns the stored value and keeps the entry — the claim's `age ≥ ttl`
behaviour does not hold at the boundary. -/
theorem getCachedResponse_at_exact_ttl_returns_value :
    (getCachedResponse
        (setCachedResponse [] "what is our aum level" "cached answer" (some "ctx") 0)
        "what is our aum level" (some "ctx") cacheLongTTL).1 = some "cached answer" ∧
    (lookupEntry
        (getCachedResponse
          (setCachedResponse [] "what is our aum level" "cached answer" (some "ctx") 0)
          "what is our aum level" (some "ctx") cacheLongTTL).2
        (generateCacheKey "what is our aum level" (some "ctx"))).isSome = true := by
  refine ⟨by decide, by decide⟩

/-- C4 (amended): a value stored for a cacheable query and read at
`age ≤ ttl(query)` is returned unchanged; read at `age > ttl(query)` it is
treated as absent and the entry is removed. -/
theorem cache_ttl_boundary (s : CacheMap) (query response : String)
    (contextHash : Option String) (t0 t : ℕ) (hc : shouldCache query = true) :
    (t - t0 ≤ getCacheTTL query →
      (getCachedResponse (setCachedResponse s query response contextHash t0)
        query contextHash t).1 = some response) ∧
    (getCacheTTL query < t - t0 →
      (getCachedResponse (setCachedResponse s query response contextHash t0)
          query contextHash t).1 = none ∧
      lookupEntry
        (getCachedResponse (setCachedResponse s query response contextHash t0)
          query contextHash t).2
        (generateCacheKey query contextHash) = none) := by
  have hstore : lookupEntry (setCachedResponse s query response contextHash t0)
      (generateCacheKey query contextHash) =
      some { response := response, timestamp := t0, hitCount := 0 } := by
    unfold setCachedResponse
    rw [if_neg (by simp [hc])]
    exact lookupEntry_mapSet _ _ _
  constructor
  · intro hage
    have hlt : ¬ getCacheTTL query < t - t0 := Nat.not_lt.mpr hage
    simp [getCachedResponse, hc, hstore, hlt]
  · intro hage
    simp [getCachedResponse, hc, hstore, hage, lookupEntry_eraseEntry]

/-- Witness for C4 (amended) at a concrete input: a long-TTL query stored at
time 0 and read at time 10. -/
theorem cache_ttl_boundary_witness :
    ((10 : ℕ) - 0 ≤ getCacheTTL "what is our aum level" →
      (getCachedResponse
        (setCachedResponse [] "what is our aum level" "cached answer" (some "ctx") 0)
        "what is our aum level" (some "ctx") 10).1 = some "cached answer") ∧
    (getCacheTTL "what is our aum level" < (10 : ℕ) - 0 →
      (getCachedResponse
          (setCachedResponse [] "what is our aum level" "cached answer" (some "ctx") 0)
          "what is our aum level" (some "ctx") 10).1 = none ∧
      lookupEntry
        (getCachedResponse
          (setCachedResponse [] "what is our aum level" "cached answer" (some "ctx") 0)
          "what is our aum level" (some "ctx") 10).2
        (generateCacheKey "what is our aum level" (some "ctx")) = none) :=
  cache_ttl_boundary [] "what is our aum level" "cached answer" (some "ctx") 0 10
    (by decide)

/-! ### Thread memory (`src/lib/claude/memory.ts`)

`threadMemory` is modelled as a functional map from thread ids to contexts.
The optional `summary` field models the JS `summary?: string`, where both an
absent field and an empty string are falsy in the `!context.summary` check. -/

/-- `MAX_MESSAGES_PER_THREAD`. -/
def MAX_MESSAGES_PER_THREAD : ℕ := 10

/-- `THREAD_TTL_MS` (24 hours). -/
def THREAD_TTL_MS : ℕ := 24 * 60 * 60 * 1000

/-- `SUMMARY_THRESHOLD`. -/
def SUMMARY_THRESHOLD : ℕ := 8

inductive Role where
  | user
  | assistant
  deriving DecidableEq, Repr

structure ThreadMessage where
  role : Role
  content : String
  timestamp : ℕ
  deriving DecidableEq, Repr

structure ThreadContext where
  threadTs : String
  messages : List ThreadMessage
  summary : Option String
  lastUpdated : ℕ
  deriving DecidableEq, Repr

/-- The `threadMemory` map. -/
def Memory : Type := String → Option ThreadContext

/-- `threadMemory.set(threadTs, context)`. -/
def memUpdate (m : Memory) (k : String) (v : ThreadContext) : Memory :=
  fun k2 => if k2 = k then some v else m k2

/-- `threadMemory.delete(threadTs)`. -/
def memErase (m : Memory) (k : String) : Memory :=
  fun k2 => if k2 = k then none else m k2

/-- JS truthiness of `context.summary`: absent or empty is falsy. -/
def summaryFalsy : Option String → Bool
  | none => true
  | some s => s == ""

/-- The fixed fund-topic keyword vocabulary of `createConversationSummary`. -/
def summaryKeywords : List String :=
  ["AUM", "performance", "position", "BTC", "bitcoin", "holdings",
   "equity", "cash", "exposure", "portfolio", "risk", "concentration",
   "premium", "discount", "mNAV", "alpha", "returns"]

/-- The `topics` set of `createConversationSummary`: scan each user message
and add each matching keyword once, in JS `Set` insertion order. -/
def collectTopics (userMessages : List String) : List String :=
  userMessages.foldl (fun acc msg =>
    summaryKeywords.foldl (fun acc2 k =>
      if strContains (toLowerStr msg) (toLowerStr k) && !acc2.contains k then
        acc2 ++ [k]
      else acc2) acc) []

/-- `createConversationSummary(messages)`. -/
def createConversationSummary (messages : List ThreadMessage) : String :=
  if messages.length = 0 then ""
  else
    let userMessages := (messages.filter (fun m => m.role == Role.user)).map
      (fun m => m.content)
    let topics := collectTopics userMessages
    if topics = [] then
      "Previous conversation about portfolio and market data (" ++
        toString messages.length ++ " messages)"
    else
      "Previous conversation topics: " ++ String.intercalate ", " topics ++
        " (" ++ toString messages.length ++ " messages)"

/-- The body of `addMessageToThread` after the context lookup: push the new
message; on overflow keep the `MAX_MESSAGES_PER_THREAD` most recent messages
and, if no (truthy) summary exists yet, summarize the evicted prefix.
Returns the new `(messages, summary)` pair. -/
def threadAppend (context : ThreadContext) (role : Role) (content : String)
    (now : ℕ) : List ThreadMessage × Option String :=
  let msgs := context.messages ++ [({ role := role, content := content, timestamp := now } : ThreadMessage)]
  if MAX_MESSAGES_PER_THREAD < msgs.length then
    let recentMessages := msgs.drop (msgs.length - MAX_MESSAGES_PER_THREAD)
    let summary2 :=
      if summaryFalsy context.summary && decide (SUMMARY_THRESHOLD < msgs.length) then
        some (createConversationSummary (msgs.take (msgs.length - MAX_MESSAGES_PER_THREAD)))
      else context.summary
    (recentMessages, summary2)
  else (msgs, context.summary)

/-- `addMessageToThread(threadTs, role, content)` at time `now`. -/
def addMessageToThread (mem : Memory) (threadTs : String) (role : Role)
    (content : String) (now : ℕ) : Memory :=
  let context : ThreadContext :=
    match mem threadTs with
    | some c => c
    | none => { threadTs := threadTs, messages := [], summary := none, lastUpdated := now }
  let trimmed := threadAppend context role content now
  memUpdate mem threadTs
    { threadTs := threadTs, messages := trimmed.1, summary := trimmed.2,
      lastUpdated := now }

/-- A sequence of `addMessageToThread` calls on one thread:
`(role, content, time)` per call. -/
def runAppends (mem : Memory) (threadTs : String)
    (ops : List (Role × String × ℕ)) : Memory :=
  ops.foldl (fun m op => addMessageToThread m threadTs op.1 op.2.1 op.2.2) mem

lemma createConversationSummary_ne_empty (messages : List ThreadMessage)
    (h : messages ≠ []) : createConversationSummary messages ≠ "" := by
  unfold createConversationSummary
  rw [if_neg (by simpa using h)]
  intro hcontra
  by_cases ht : collectTopics ((messages.filter (fun m => m.role == Role.user)).map
      (fun m => m.content)) = []
  · rw [if_pos ht] at hcontra
    have h2 := congrArg String.length hcontra
    simp [String.length_append] at h2
    exact absurd h2.1.1 (by decide)
  · rw [if_neg ht] at hcontra
    have h2 := congrArg String.length hcontra
    simp [String.length_append] at h2
    exact absurd h2.1.1.1.1 (by decide)

lemma addMessageToThread_some (mem : Memory) (threadTs : String) (role : Role)
    (content : String) (now : ℕ) (c : ThreadContext)
    (hc : mem threadTs = some c) :
    (addMessageToThread mem threadTs role content now) threadTs =
      some { threadTs := threadTs,
             messages := (threadAppend c role content now).1,
             summary := (threadAppend c role content now).2,
             lastUpdated := now } := by
  simp [addMessageToThread, hc, memUpdate]

lemma addMessageToThread_none (mem : Memory) (threadTs : String) (role : Role)
    (content : String) (now : ℕ) (hc : mem threadTs = none) :
    (addMessageToThread mem threadTs role content now) threadTs =
      some { threadTs := threadTs,
             messages := [({ role := role, content := content, timestamp := now } : ThreadMessage)],
             summary := none, lastUpdated := now } := by
  simp [addMessageToThread, hc, memUpdate, threadAppend, MAX_MESSAGES_PER_THREAD]

lemma threadAppend_no_overflow (c : ThreadContext) (role : Role)
    (content : String) (now : ℕ)
    (h : c.messages.length + 1 ≤ MAX_MESSAGES_PER_THREAD) :
    threadAppend c role content now =
      (c.messages ++ [({ role := role, content := content, timestamp := now } : ThreadMessage)],
       c.summary) := by
  simp only [threadAppend, List.length_append, List.length_cons, List.length_nil]
  rw [if_neg (by omega)]

lemma threadAppend_overflow_fresh (c : ThreadContext) (role : Role)
    (content : String) (now : ℕ)
    (hlen : c.messages.length = MAX_MESSAGES_PER_THREAD)
    (hsum : summaryFalsy c.summary = true) :
    threadAppend c role content now =
      ((c.messages ++ [({ role := role, content := content, timestamp := now } : ThreadMessage)]).drop 1,
       some (createConversationSummary
         ((c.messages ++ [({ role := role, content := content, timestamp := now } : ThreadMessage)]).take 1))) := by
  simp [threadAppend, hlen, hsum, MAX_MESSAGES_PER_THREAD, SUMMARY_THRESHOLD]

lemma threadAppend_overflow_locked (c : ThreadContext) (role : Role)
    (content : String) (now : ℕ)
    (hlen : c.messages.length = MAX_MESSAGES_PER_THREAD)
    (hsum : summaryFalsy c.summary = false) :
    threadAppend c role content now =
      ((c.messages ++ [({ role := role, content := content, timestamp := now } : ThreadMessage)]).drop 1,
       c.summary) := by
  simp [threadAppend, hlen, hsum, MAX_MESSAGES_PER_THREAD]

/-- The reachable-state invariant for one thread after `k` appends from a
fresh (absent) entry. -/
def memInv (mem : Memory) (threadTs : String) (k : ℕ) : Prop :=
  (k = 0 ∧ mem threadTs = none) ∨
  (1 ≤ k ∧ ∃ c : ThreadContext, mem threadTs = some c ∧
    c.messages.length = min k MAX_MESSAGES_PER_THREAD ∧
    (k ≤ MAX_MESSAGES_PER_THREAD → c.summary = none) ∧
    (MAX_MESSAGES_PER_THREAD < k → ∃ s, c.summary = some s ∧ s ≠ ""))

lemma addMessageToThread_preserves_inv (mem : Memory) (threadTs : String)
    (k : ℕ) (role : Role) (content : String) (now : ℕ)
    (h : memInv mem threadTs k) :
    memInv (addMessageToThread mem threadTs role content now) threadTs (k + 1) := by
  rcases h with ⟨hk, hnone⟩ | ⟨hk, c, hc, hlen, hsum_le, hsum_gt⟩
  · subst hk
    right
    refine ⟨by omega,
      { threadTs := threadTs,
        messages := [({ role := role, content := content, timestamp := now } : ThreadMessage)],
        summary := none, lastUpdated := now },
      addMessageToThread_none mem threadTs role content now hnone, ?_, ?_, ?_⟩
    · simp [MAX_MESSAGES_PER_THREAD]
    · intro _; rfl
    · intro hcontra; simp [MAX_MESSAGES_PER_THREAD] at hcontra
  · have hlenM : c.messages.length ≤ MAX_MESSAGES_PER_THREAD := by
      rw [hlen]; omega
    by_cases hover : c.messages.length + 1 ≤ MAX_MESSAGES_PER_THREAD
    · have hkM : k < MAX_MESSAGES_PER_THREAD := by omega
      right
      refine ⟨by omega,
        { threadTs := threadTs,
          messages := c.messages ++ [({ role := role, content := content, timestamp := now } : ThreadMessage)],
          summary := c.summary, lastUpdated := now }, ?_, ?_, ?_, ?_⟩
      · rw [addMessageToThread_some mem threadTs role content now c hc,
          threadAppend_no_overflow c role content now hover]
      · simp only [List.length_append, List.length_cons, List.length_nil]
        omega
      · intro h1; exact hsum_le (by omega)
      · intro h1; exfalso; omega
    · have hlen10 : c.messages.length = MAX_MESSAGES_PER_THREAD := by omega
      have hkM : MAX_MESSAGES_PER_THREAD ≤ k := by omega
      by_cases hfirst : k = MAX_MESSAGES_PER_THREAD
      · have hsum : c.summary = none := hsum_le (by omega)
        have hfalsy : summaryFalsy c.summary = true := by rw [hsum]; rfl
        right
        refine ⟨by omega,
          { threadTs := threadTs,
            messages := (c.messages ++
              [({ role := role, content := content, timestamp := now } : ThreadMessage)]).drop 1,
            summary := some (createConversationSummary ((c.messages ++
              [({ role := role, content := content, timestamp := now } : ThreadMessage)]).take 1)),
            lastUpdated := now }, ?_, ?_, ?_, ?_⟩
        · rw [addMessageToThread_some mem threadTs role content now c hc,
            threadAppend_overflow_fresh c role content now hlen10 hfalsy]
        · simp only [List.length_drop, List.length_append, List.length_cons,
            List.length_nil]
          omega
        · intro hcontra; exfalso; omega
        · intro _
          refine ⟨_, rfl, ?_⟩
          apply createConversationSummary_ne_empty
          intro hcontra
          have h2 := congrArg List.length hcontra
          simp only [List.length_take, List.length_append, List.length_cons,
            List.length_nil, List.length_eq_zero] at h2
          omega
      · obtain ⟨s, hs, hsne⟩ := hsum_gt (by omega)
        have hfalsy : summaryFalsy c.summary = false := by
          rw [hs]; simp [summaryFalsy, hsne]
        right
        refine ⟨by omega,
          { threadTs := threadTs,
            messages := (c.messages ++
              [({ role := role, content := content, timestamp := now } : ThreadMessage)]).drop 1,
            summary := c.summary, lastUpdated := now }, ?_, ?_, ?_, ?_⟩
        · rw [addMessageToThread_some mem threadTs role content now c hc,
            threadAppend_overflow_locked c role content now hlen10 hfalsy]
        · simp only [List.length_drop, List.length_append, List.length_cons,
            List.length_nil]
          omega
        · intro hcontra; exfalso; omega
        · intro _; exact ⟨s, hs, hsne⟩

lemma runAppends_inv (threadTs : String) :
    ∀ (ops : List (Role × String × ℕ)) (mem : Memory) (k : ℕ),
      memInv mem threadTs k →
      memInv (runAppends mem threadTs ops) threadTs (k + ops.length) := by
  intro ops
  induction ops with
  | nil => intro mem k h; simpa [runAppends] using h
  | cons op ops ih =>
    intro mem k h
    have h2 := addMessageToThread_preserves_inv mem threadTs k op.1 op.2.1 op.2.2 h
    have h3 := ih (addMessageToThread mem threadTs op.1 op.2.1 op.2.2) (k + 1) h2
    simpa [runAppends, Nat.add_assoc, Nat.add_comm 1 ops.length] using h3

/-- C8: starting from a thread with no entry, after any sequence of appends
the stored message list never exceeds `MAX_MESSAGES_PER_THREAD`; appending
more than that leaves exactly `MAX_MESSAGES_PER_THREAD` stored messages and a
non-empty summary, while appending fewer leaves no summary. -/
theorem addMessageToThread_bound_and_summary (mem0 : Memory) (threadTs : String)
    (ops : List (Role × String × ℕ)) (h0 : mem0 threadTs = none)
    (c : ThreadContext) (hc : (runAppends mem0 threadTs ops) threadTs = some c) :
    c.messages.length ≤ MAX_MESSAGES_PER_THREAD ∧
    (MAX_MESSAGES_PER_THREAD < ops.length →
      c.messages.length = MAX_MESSAGES_PER_THREAD ∧
      ∃ s, c.summary = some s ∧ s ≠ "") ∧
    (ops.length < MAX_MESSAGES_PER_THREAD → c.summary = none) := by
  have hinv := runAppends_inv threadTs ops mem0 0 (Or.inl ⟨rfl, h0⟩)
  rw [Nat.zero_add] at hinv
  rcases hinv with ⟨hk, hnone⟩ | ⟨_, c2, hc2, hlen, hsum_le, hsum_gt⟩
  · rw [hnone] at hc; cases hc
  · rw [hc2] at hc
    cases hc
    refine ⟨by rw [hlen]; omega, ?_, ?_⟩
    · intro hgt
      exact ⟨by rw [hlen]; omega, hsum_gt hgt⟩
    · intro hlt
      exact hsum_le (by omega)

/-- The thread context left by 11 appends of a keyword-free user message into
a fresh thread. -/
def elevenAppendsCtx : ThreadContext :=
  { threadTs := "T",
    messages := List.replicate 10
      { role := Role.user, content := "hello there", timestamp := 5 },
    summary := some "Previous conversation about portfolio and market data (1 messages)",
    lastUpdated := 5 }

/-- Witness for C8 at a concrete input: 11 appends into a fresh thread leave
10 messages and a non-empty summary. -/
theorem addMessageToThread_bound_and_summary_witness :
    elevenAppendsCtx.messages.length ≤ MAX_MESSAGES_PER_THREAD ∧
    (MAX_MESSAGES_PER_THREAD < (List.replicate 11 ((Role.user, "hello there", 5) :
        Role × String × ℕ)).length →
      elevenAppendsCtx.messages.length = MAX_MESSAGES_PER_THREAD ∧
      ∃ s, elevenAppendsCtx.summary = some s ∧ s ≠ "") ∧
    ((List.replicate 11 ((Role.user, "hello there", 5) : Role × String × ℕ)).length <
        MAX_MESSAGES_PER_THREAD →
      elevenAppendsCtx.summary = none) :=
  addMessageToThread_bound_and_summary (fun _ => none) "T"
    (List.replicate 11 (Role.user, "hello there", 5)) rfl elevenAppendsCtx (by decide)

lemma addMessageToThread_keeps_summary (mem : Memory) (threadTs : String)
    (role : Role) (content : String) (now : ℕ) (c : ThreadContext) (s : String)
    (hc : mem threadTs = some c) (hs : c.summary = some s) (hsne : s ≠ "") :
    ∃ c2, (addMessageToThread mem threadTs role content now) threadTs = some c2 ∧
      c2.summary = some s := by
  have hfalsy : summaryFalsy c.summary = false := by
    rw [hs]; simp [summaryFalsy, hsne]
  by_cases hover : c.messages.length + 1 ≤ MAX_MESSAGES_PER_THREAD
  · exact ⟨_, addMessageToThread_some mem threadTs role content now c hc,
      by rw [threadAppend_no_overflow c role content now hover]; exact hs⟩
  · refine ⟨_, addMessageToThread_some mem threadTs role content now c hc, ?_⟩
    unfold threadAppend
    simp only [List.length_append, List.length_cons, List.length_nil]
    rw [if_pos (by omega)]
    simp only [hfalsy, Bool.false_and, Bool.false_eq_true, if_false]
    exact hs

/-- C9: once a thread's summary has been set (it is then a non-empty string,
see C8), every later `addMessageToThread` call leaves the summary unchanged —
messages evicted by later overflows are never incorporated into it. -/
theorem addMessageToThread_summary_frozen (mem : Memory) (threadTs : String)
    (ops : List (Role × String × ℕ)) (c : ThreadContext) (s : String)
    (hc : mem threadTs = some c) (hs : c.summary = some s) (hsne : s ≠ "") :
    ∃ c2, (runAppends mem threadTs ops) threadTs = some c2 ∧
      c2.summary = some s := by
  induction ops generalizing mem c with
  | nil => exact ⟨c, by simpa [runAppends] using hc, hs⟩
  | cons op ops ih =>
    obtain ⟨c2, hc2, hs2⟩ :=
      addMessageToThread_keeps_summary mem threadTs op.1 op.2.1 op.2.2 c s hc hs hsne
    obtain ⟨c3, hc3, hs3⟩ :=
      ih (addMessageToThread mem threadTs op.1 op.2.1 op.2.2) c2 hc2 hs2
    exact ⟨c3, by simpa [runAppends] using hc3, hs3⟩

/-- Witness for C9 at a concrete input: a thread whose summary is already set
keeps it across two further appends. -/
theorem addMessageToThread_summary_frozen_witness :
    ∃ c2, (runAppends
        (fun k => if k = "T" then some
          { threadTs := "T",
            messages := [{ role := Role.user, content := "hi", timestamp := 1 }],
            summary := some "S", lastUpdated := 1 }
        else none)
        "T" [(Role.user, "first", 2), (Role.assistant, "second", 3)]) "T" =
      some c2 ∧ c2.summary = some "S" :=
  addMessageToThread_summary_frozen
    (fun k => if k = "T" then some
      { threadTs := "T",
        messages := [{ role := Role.user, content := "hi", timestamp := 1 }],
        summary := some "S", lastUpdated := 1 }
    else none)
    "T" [(Role.user, "first", 2), (Role.assistant, "second", 3)]
    { threadTs := "T",
      messages := [{ role := Role.user, content := "hi", timestamp := 1 }],
      summary := some "S", lastUpdated := 1 }
    "S" (by decide) rfl (by decide)

/-! ### Slack thread history recovery (`src/lib/slack/client.ts`,
`src/lib/claude/memory.ts`)

`getThreadHistory` consumes the raw message list the Slack API returned for
`conversations.replies` (the `limit` parameter is part of the API request;
the code does not truncate locally, so the list length bound is an input
hypothesis) together with the bot's user id from `auth.test`. The regex
cleanup passes of `cleanSlackMessage` are implemented as character scans with
a fuel argument bounded by the input length. -/

/-- A character the `/<@[A-Z0-9]+>/` mention pattern accepts. -/
def isMentionChar (c : Char) : Bool :=
  (decide ('A' ≤ c) && decide (c ≤ 'Z')) || (decide ('0' ≤ c) && decide (c ≤ '9'))

/-- `replace(/<@[A-Z0-9]+>/g, '')`: left-to-right, non-overlapping; on a
failed match the scan advances one character. -/
def stripMentionsAux : ℕ → List Char → List Char
  | 0, l => l
  | _ + 1, [] => []
  | fuel + 1, c :: rest =>
    if c = '<' then
      match rest with
      | '@' :: rest2 =>
        match rest2.takeWhile isMentionChar, rest2.dropWhile isMentionChar with
        | _ :: _, '>' :: tail => stripMentionsAux fuel tail
        | _, _ => c :: stripMentionsAux fuel rest
      | _ => c :: stripMentionsAux fuel rest
    else c :: stripMentionsAux fuel rest

/-- `replace(/<([^|>]+)\|([^>]+)>/g, '$2')`: keep the link label. -/
def stripLabeledLinksAux : ℕ → List Char → List Char
  | 0, l => l
  | _ + 1, [] => []
  | fuel + 1, c :: rest =>
    if c = '<' then
      match rest.takeWhile (fun d => !(d = '|' || d = '>')),
          rest.dropWhile (fun d => !(d = '|' || d = '>')) with
      | _ :: _, '|' :: rest3 =>
        match rest3.takeWhile (fun d => !(d = '>')),
            rest3.dropWhile (fun d => !(d = '>')) with
        | seg2 :: seg2t, '>' :: tail =>
          (seg2 :: seg2t) ++ stripLabeledLinksAux fuel tail
        | _, _ => c :: stripLabeledLinksAux fuel rest
      | _, _ => c :: stripLabeledLinksAux fuel rest
    else c :: stripLabeledLinksAux fuel rest

/-- `replace(/<([^>]+)>/g, '$1')`: unwrap remaining angle links. -/
def stripLinksAux : ℕ → List Char → List Char
  | 0, l => l
  | _ + 1, [] => []
  | fuel + 1, c :: rest =>
    if c = '<' then
      match rest.takeWhile (fun d => !(d = '>')),
          rest.dropWhile (fun d => !(d = '>')) with
      | seg :: segt, '>' :: tail => (seg :: segt) ++ stripLinksAux fuel tail
      | _, _ => c :: stripLinksAux fuel rest
    else c :: stripLinksAux fuel rest

/-- `cleanSlackMessage(text)`: strip mentions, convert links to their labels,
unwrap remaining links, collapse whitespace and trim. -/
def cleanSlackMessage (text : String) : String :=
  let l1 := stripMentionsAux text.data.length text.data
  let l2 := stripLabeledLinksAux l1.length l1
  let l3 := stripLinksAux l2.length l2
  String.mk (trimChars (squeezeWsAux false l3))

/-- A raw message of the `conversations.replies` result: author, text
("" when absent), whether a `subtype` is present, and the message ts. -/
structure SlackRawMessage where
  user : String
  text : String
  hasSubtype : Bool
  ts : String
  deriving DecidableEq, Repr

structure RecoveredMessage where
  role : Role
  content : String
  ts : String
  deriving DecidableEq, Repr

/-- `getThreadHistory(channel, threadTs, limit)` applied to the raw API
result and the bot user id: skip the thread parent, keep regular messages
with text, assign roles by author. -/
def getThreadHistory (rawMessages : List SlackRawMessage) (botUserId : String) :
    List RecoveredMessage :=
  if rawMessages.length = 0 then []
  else
    ((rawMessages.drop 1).filter (fun m => m.text != "" && !m.hasSubtype)).map
      (fun m =>
        { role := if m.user == botUserId then Role.assistant else Role.user,
          content := cleanSlackMessage m.text,
          ts := m.ts })

/-- `getThreadContext(threadTs)` at time `now`: expired threads are dropped. -/
def getThreadContext (mem : Memory) (threadTs : String) (now : ℕ) :
    Option ThreadContext × Memory :=
  match mem threadTs with
  | none => (none, mem)
  | some c =>
    if THREAD_TTL_MS < now - c.lastUpdated then (none, memErase mem threadTs)
    else (some c, mem)

/-- `getThreadMessages(threadTs)` at time `now`: the stored messages, with a
truthy summary surfaced as two synthetic leading messages. -/
def getThreadMessages (mem : Memory) (threadTs : String) (now : ℕ) :
    List (Role × String) :=
  match (getThreadContext mem threadTs now).1 with
  | none => []
  | some context =>
    let messages := context.messages.map (fun m => (m.role, m.content))
    match context.summary with
    | some s =>
      if s != "" && decide (0 < messages.length) then
        (Role.assistant, "Noted, I'll keep that context in mind.") ::
        (Role.user, "[Context from earlier in conversation: " ++ s ++ "]") ::
        messages
      else messages
    | none => messages

/-- `getThreadMessagesWithFallback(threadTs, channel)` at time `now`, against
the raw Slack history: use the in-memory cache when non-empty, otherwise
recover from Slack and rehydrate the cache. -/
def getThreadMessagesWithFallback (mem : Memory) (threadTs : String) (now : ℕ)
    (slackRaw : List SlackRawMessage) (botUserId : String) :
    List (Role × String) × Memory :=
  let cachedMessages := getThreadMessages mem threadTs now
  if 0 < cachedMessages.length then (cachedMessages, mem)
  else
    let slackHistory := getThreadHistory slackRaw botUserId
    if 0 < slackHistory.length then
      (slackHistory.map (fun m => (m.role, m.content)),
       slackHistory.foldl
         (fun m msg => addMessageToThread m threadTs msg.role msg.content now) mem)
    else ([], mem)

lemma getThreadHistory_length_le (raw : List SlackRawMessage) (bot : String) :
    (getThreadHistory raw bot).length ≤ raw.length - 1 := by
  unfold getThreadHistory
  split
  · simp
  · simp only [List.length_map]
    calc ((raw.drop 1).filter (fun m => m.text != "" && !m.hasSubtype)).length
        ≤ (raw.drop 1).length := List.length_filter_le _ _
      _ = raw.length - 1 := by simp

lemma getThreadHistory_mem (raw : List SlackRawMessage) (bot : String)
    (r : RecoveredMessage) (hr : r ∈ getThreadHistory raw bot) :
    ∃ m ∈ raw.drop 1, m.text ≠ "" ∧ m.hasSubtype = false ∧
      r.role = (if m.user = bot then Role.assistant else Role.user) ∧
      r.content = cleanSlackMessage m.text := by
  unfold getThreadHistory at hr
  split at hr
  · simp at hr
  · simp only [List.mem_map, List.mem_filter] at hr
    obtain ⟨m, ⟨hm1, hm2⟩, rfl⟩ := hr
    simp only [Bool.and_eq_true, bne_iff_ne, Bool.not_eq_true'] at hm2
    refine ⟨m, hm1, hm2.1, hm2.2, ?_, rfl⟩
    by_cases h : m.user = bot <;> simp [h]

/-- C10: a thread recovered via the fallback read excludes the thread parent
(first raw message) and every message lacking text or carrying a subtype,
contains at most `MAX_MESSAGES_PER_THREAD` messages (given the API honours
the requested limit), and a recovered message's role is `assistant` exactly
when its author is the bot's own user id. -/
theorem getThreadMessagesWithFallback_recovery (mem : Memory)
    (threadTs : String) (now : ℕ) (raw : List SlackRawMessage)
    (botUserId : String)
    (hmem : getThreadMessages mem threadTs now = [])
    (hlim : raw.length ≤ MAX_MESSAGES_PER_THREAD) :
    (getThreadMessagesWithFallback mem threadTs now raw botUserId).1.length ≤
      MAX_MESSAGES_PER_THREAD ∧
    (getThreadMessagesWithFallback mem threadTs now raw botUserId).1.length ≤
      raw.length - 1 ∧
    ∀ p ∈ (getThreadMessagesWithFallback mem threadTs now raw botUserId).1,
      ∃ m ∈ raw.drop 1, m.text ≠ "" ∧ m.hasSubtype = false ∧
        p.1 = (if m.user = botUserId then Role.assistant else Role.user) ∧
        p.2 = cleanSlackMessage m.text := by
  have hres : (getThreadMessagesWithFallback mem threadTs now raw botUserId).1 =
      if 0 < (getThreadHistory raw botUserId).length then
        (getThreadHistory raw botUserId).map (fun m => (m.role, m.content))
      else [] := by
    simp only [getThreadMessagesWithFallback, hmem, List.length_nil,
      Nat.lt_irrefl, if_false]
    split <;> rfl
  rw [hres]
  by_cases hh : 0 < (getThreadHistory raw botUserId).length
  · rw [if_pos hh]
    refine ⟨?_, ?_, ?_⟩
    · simp only [List.length_map]
      calc (getThreadHistory raw botUserId).length
          ≤ raw.length - 1 := getThreadHistory_length_le raw botUserId
        _ ≤ MAX_MESSAGES_PER_THREAD := by omega
    · simpa using getThreadHistory_length_le raw botUserId
    · intro p hp
      simp only [List.mem_map] at hp
      obtain ⟨r, hr, rfl⟩ := hp
      obtain ⟨m, hm, h1, h2, h3, h4⟩ := getThreadHistory_mem raw botUserId r hr
      exact ⟨m, hm, h1, h2, h3, h4⟩
  · rw [if_neg hh]
    exact ⟨by simp, by simp, by simp⟩

/-- Witness for C10 at a concrete input: a parent plus four replies, one of
which is textless and subtyped, recovered with bot id "BOT". -/
theorem getThreadMessagesWithFallback_recovery_witness :
    (getThreadMessagesWithFallback (fun _ => none) "T" 0
        [{ user := "U1", text := "original question", hasSubtype := false, ts := "100" },
         { user := "U1", text := "what is our aum", hasSubtype := false, ts := "101" },
         { user := "BOT", text := "Our AUM is 50", hasSubtype := false, ts := "102" },
         { user := "U2", text := "", hasSubtype := true, ts := "103" },
         { user := "U1", text := "thanks <@BOT123>", hasSubtype := false, ts := "104" }]
        "BOT").1.length ≤ MAX_MESSAGES_PER_THREAD ∧
    (getThreadMessagesWithFallback (fun _ => none) "T" 0
        [{ user := "U1", text := "original question", hasSubtype := false, ts := "100" },
         { user := "U1", text := "what is our aum", hasSubtype := false, ts := "101" },
         { user := "BOT", text := "Our AUM is 50", hasSubtype := false, ts := "102" },
         { user := "U2", text := "", hasSubtype := true, ts := "103" },
         { user := "U1", text := "thanks <@BOT123>", hasSubtype := false, ts := "104" }]
        "BOT").1.length ≤
      [{ user := "U1", text := "original question", hasSubtype := false, ts := "100" },
       { user := "U1", text := "what is our aum", hasSubtype := false, ts := "101" },
       { user := "BOT", text := "Our AUM is 50", hasSubtype := false, ts := "102" },
       { user := "U2", text := "", hasSubtype := true, ts := "103" },
       ({ user := "U1", text := "thanks <@BOT123>", hasSubtype := false, ts := "104" } :
         SlackRawMessage)].length - 1 ∧
    ∀ p ∈ (getThreadMessagesWithFallback (fun _ => none) "T" 0
        [{ user := "U1", text := "original question", hasSubtype := false, ts := "100" },
         { user := "U1", text := "what is our aum", hasSubtype := false, ts := "101" },
         { user := "BOT", text := "Our AUM is 50", hasSubtype := false, ts := "102" },
         { user := "U2", text := "", hasSubtype := true, ts := "103" },
         { user := "U1", text := "thanks <@BOT123>", hasSubtype := false, ts := "104" }]
        "BOT").1,
      ∃ m ∈ ([{ user := "U1", text := "original question", hasSubtype := false, ts := "100" },
         { user := "U1", text := "what is our aum", hasSubtype := false, ts := "101" },
         { user := "BOT", text := "Our AUM is 50", hasSubtype := false, ts := "102" },
         { user := "U2", text := "", hasSubtype := true, ts := "103" },
         { user := "U1", text := "thanks <@BOT123>", hasSubtype := false, ts := "104" }] :
           List SlackRawMessage).drop 1,
        m.text ≠ "" ∧ m.hasSubtype = false ∧
        p.1 = (if m.user = "BOT" then Role.assistant else Role.user) ∧
        p.2 = cleanSlackMessage m.text :=
  getThreadMessagesWithFallback_recovery (fun _ => none) "T" 0
    [{ user := "U1", text := "original question", hasSubtype := false, ts := "100" },
     { user := "U1", text := "what is our aum", hasSubtype := false, ts := "101" },
     { user := "BOT", text := "Our AUM is 50", hasSubtype := false, ts := "102" },
     { user := "U2", text := "", hasSubtype := true, ts := "103" },
     { user := "U1", text := "thanks <@BOT123>", hasSubtype := false, ts := "104" }]
    "BOT" rfl (by decide)

end FundBot
